import Mathlib

/-!
Shallow embedding of the PDF password-resolution engine of this repository
(src/utils/pdf_handler.py, class PdfHandler): password-format extraction
from email text (_extract_password_format), password variant generation
(_generate_variants_from_format), and the two entry points process_pdf
and find_working_password.

The external PDF library (PyPDF2 parsing, decryption, page extraction and
re-serialization through PdfWriter) is modelled by a structure of
deterministic total functions on the raw document bytes. An exception
raised inside the decrypt/extract calls is modelled as a distinguished
outcome DecryptOutcome.exn, which _try_decrypt_with_password swallows and
converts to a failed attempt, exactly as the source's try/except does.

Reader freshness (the source builds a new PyPDF2.PdfReader per attempt in
some places and reuses one in others) is tracked in an attempt trace: each
decrypt attempt records the password tried and whether the reader it used
had never failed a decrypt attempt before (fresh = true).
-/

namespace PdfHandler

/-- Python str whitespace predicate used by str.strip(): space, tab,
newline, carriage return, vertical tab (11) and form feed (12). -/
def pyIsSpace (c : Char) : Bool :=
  c == ' ' || c == '\t' || c == '\n' || c == '\r' || c.toNat == 11 || c.toNat == 12

/-- Python str.strip() on a character list. -/
def pyStripL (cs : List Char) : List Char :=
  ((cs.dropWhile pyIsSpace).reverse.dropWhile pyIsSpace).reverse

/-- Python password.strip(). -/
def pyStrip (s : String) : String := String.mk (pyStripL s.data)

/-- Python password.replace(" ", ""): removes space characters only. -/
def removeSpaces (s : String) : String := String.mk (s.data.filter (fun c => c != ' '))

/-- Python join of filter(str.isdigit, s): keeps only digit characters. -/
def digitsOnly (s : String) : String := String.mk (s.data.filter Char.isDigit)

/-- Python int(join of filter(str.isdigit, s)): the digit characters of s
read as a decimal number (the source only calls this when s contains at
least one digit). -/
def digitsToNat (s : String) : Nat :=
  (s.data.filter Char.isDigit).foldl (fun n c => 10 * n + (c.toNat - 48)) 0

/-- Python password.replace("/", "").replace("-", ""). -/
def stripSlashDash (s : String) : String :=
  String.mk ((s.data.filter (fun c => c != '/')).filter (fun c => c != '-'))

/-- Boolean list-prefix test. -/
def isPrefixB : List Char → List Char → Bool
  | [], _ => true
  | _ :: _, [] => false
  | a :: as, b :: bs => a == b && isPrefixB as bs

/-- Boolean list-infix test (Python sub in hay on strings). -/
def isInfixB (needle : List Char) : List Char → Bool
  | [] => isPrefixB needle []
  | c :: cs => isPrefixB needle (c :: cs) || isInfixB needle cs

/-- Python sub in hay for strings. -/
def containsSub (hay sub : String) : Bool := isInfixB sub.data hay.data

/-- Python s.lower() (ASCII, which is all the source's patterns use). -/
def lowerS (s : String) : String := String.mk (s.data.map Char.toLower)

/-- Python s[-n:]: the last n characters, the whole string when n = 0 or
n exceeds the length. -/
def pyTakeLast (s : String) (n : Nat) : String :=
  if n = 0 then s else String.mk (s.data.drop (s.data.length - n))

/-- Python s[:n]. -/
def pyTake (s : String) (n : Nat) : String := String.mk (s.data.take n)

/-- Order-keeping duplicate removal: model of Python list(set(xs)); the
concrete dedup keeps the first occurrence of each element. -/
def dedupGo (seen : List String) : List String → List String
  | [] => []
  | a :: l => if a ∈ seen then dedupGo seen l else a :: dedupGo (a :: seen) l

/-- Model of Python list(set(xs)). -/
def dedupF (l : List String) : List String := dedupGo [] l

/-- Embedding of PdfHandler._generate_variants_from_format. -/
def generateVariants (password : String) (formatHint : Option String) : List String :=
  match formatHint with
  | none => [password]
  | some hintRaw =>
    if hintRaw = "" then [password]
    else
      let fh := lowerS hintRaw
      let branch : List String :=
        if containsSub fh "dob" || containsSub fh "date of birth" then
          let cleanPass := pyStrip (stripSlashDash password)
          if cleanPass.data.length = 8 then
            [cleanPass,  -- clean_pass as-is (source comment: DDMMYYYY)
             -- clean_pass[4:] + clean_pass[2:4] + clean_pass[:2] (source comment: YYYYMMDD)
             String.mk (cleanPass.data.drop 4 ++ (cleanPass.data.drop 2).take 2 ++ cleanPass.data.take 2),
             -- clean_pass[:4] + clean_pass[4:6] + clean_pass[6:] (source comment: MMDDYYYY)
             String.mk (cleanPass.data.take 4 ++ (cleanPass.data.drop 4).take 2 ++ cleanPass.data.drop 6)]
          else []
        else if containsSub fh "last" && fh.data.any Char.isDigit then
          let numDigits := digitsToNat fh
          if password.data.length ≥ numDigits then [pyTakeLast password numDigits] else []
        else if containsSub fh "first" && fh.data.any Char.isDigit then
          let numDigits := digitsToNat fh
          if password.data.length ≥ numDigits then [pyTake password numDigits] else []
        else []
      dedupF ([password] ++ branch ++ [pyStrip password, removeSpaces password, digitsOnly password])

/-!
Regular-expression model for _extract_password_format. The six source
patterns use only: literal text, a non-capturing two-way alternation of
literals, the lazy any-character star (which does not match a newline),
and one greedy captured character-class repetition per pattern. The
matcher below implements Python re backtracking priorities for exactly
these constructs: alternation prefers the left branch, the lazy star
prefers consuming nothing, the greedy capture prefers the longest run,
and re.search tries start positions left to right. Fuel bounds the
backtracking recursion; it is chosen large enough for the evaluations
performed here.
-/

/-- Regex token for the source's six patterns. capTryD and capTryW are
internal backtracking states of the greedy captures. -/
inductive RTok where
  | lit (s : List Char)
  | alt2 (a b : List Char)
  | star
  | capD
  | capW
  | capTryD (k : Nat)
  | capTryW (k : Nat)

/-- Python word-character class for a lowercased ASCII text. -/
def isWordChar (c : Char) : Bool := c.isAlphanum || c == '_'

/-- Backtracking matcher: tries to match the token list against a prefix
of the input, returning the text of the (single) capture group on
success. acc holds the capture collected so far. -/
def matchToks : Nat → List RTok → List Char → List Char → Option (List Char)
  | 0, _, _, _ => none
  | _ + 1, [], _, acc => some acc
  | fuel + 1, .lit s :: rest, input, acc =>
    if isPrefixB s input then matchToks fuel rest (input.drop s.length) acc else none
  | fuel + 1, .alt2 a b :: rest, input, acc =>
    match (if isPrefixB a input then matchToks fuel rest (input.drop a.length) acc else none) with
    | some c => some c
    | none => if isPrefixB b input then matchToks fuel rest (input.drop b.length) acc else none
  | fuel + 1, .star :: rest, input, acc =>
    match matchToks fuel rest input acc with
    | some c => some c
    | none =>
      match input with
      | [] => none
      | c :: cs => if c == '\n' then none else matchToks fuel (.star :: rest) cs acc
  | fuel + 1, .capD :: rest, input, acc =>
    matchToks fuel (.capTryD (input.takeWhile Char.isDigit).length :: rest) input acc
  | fuel + 1, .capW :: rest, input, acc =>
    matchToks fuel (.capTryW (input.takeWhile isWordChar).length :: rest) input acc
  | fuel + 1, .capTryD k :: rest, input, acc =>
    if k = 0 then none
    else
      match matchToks fuel rest (input.drop k) (input.take k) with
      | some c => some c
      | none => matchToks fuel (.capTryD (k - 1) :: rest) input acc
  | fuel + 1, .capTryW k :: rest, input, acc =>
    if k = 0 then none
    else
      match matchToks fuel rest (input.drop k) (input.take k) with
      | some c => some c
      | none => matchToks fuel (.capTryW (k - 1) :: rest) input acc

/-- re.search: try the match at each start position, left to right. -/
def searchToks : Nat → List RTok → List Char → Option (List Char)
  | 0, _, _ => none
  | fuel + 1, toks, input =>
    match matchToks 50000 toks input [] with
    | some c => some c
    | none =>
      match input with
      | [] => none
      | _ :: cs => searchToks fuel toks cs

/-- The six source patterns, in their fixed priority order. Note the
second alternative of the date-of-birth alternation is the uppercase
literal DOB exactly as in the source, although the text it is searched
in has been lowercased. -/
def sourcePatterns : List (List RTok) :=
  [ -- password.*?(?:is|:).*?(?:date of birth|DOB).*?(?:format|in).*?(\w+)
    [.lit "password".data, .star, .alt2 "is".data ":".data, .star,
     .alt2 "date of birth".data "DOB".data, .star, .alt2 "format".data "in".data, .star, .capW],
    -- password.*?(?:is|:).*?last (\d+) digits
    [.lit "password".data, .star, .alt2 "is".data ":".data, .star,
     .lit "last ".data, .capD, .lit " digits".data],
    -- password.*?(?:is|:).*?first (\d+) digits
    [.lit "password".data, .star, .alt2 "is".data ":".data, .star,
     .lit "first ".data, .capD, .lit " digits".data],
    -- password format.*?(\w+)
    [.lit "password format".data, .star, .capW],
    -- password.*?in.*?(\w+).*?format
    [.lit "password".data, .star, .lit "in".data, .star, .capW, .star, .lit "format".data],
    -- format.*?(\w+).*?(?:for password|as password)
    [.lit "format".data, .star, .capW, .star,
     .alt2 "for password".data "as password".data] ]

/-- First pattern that matches wins. -/
def tryPatterns : List (List RTok) → List Char → Option (List Char)
  | [], _ => none
  | p :: ps, t =>
    match searchToks (t.length + 1) p t with
    | some c => some c
    | none => tryPatterns ps t

/-- Embedding of PdfHandler._extract_password_format: lowercase the email
body, try the six patterns in order, return the first capture group of
the first pattern that matches. -/
def extractPasswordFormat (emailBody : String) : Option String :=
  match tryPatterns sourcePatterns (emailBody.data.map Char.toLower) with
  | some c => some (String.mk c)
  | none => none

/-- Raw document bytes. -/
abbrev Bytes := List Nat

/-- Outcome of one pdf_reader.decrypt(password) call followed by the
verification read of the first page: ok means decrypt reported success and
the first page's text extraction did not throw; wrong means decrypt
reported failure; exn means an exception was raised somewhere inside the
decrypt or extraction call. -/
inductive DecryptOutcome where
  | ok
  | wrong
  | exn
deriving DecidableEq

/-- Deterministic model of the external PDF library (PyPDF2) on a given
byte string. parseErr gives the exception message when PyPDF2.PdfReader
raises on these bytes, none when parsing succeeds. writeOut is the byte
string produced by copying the decrypted reader's pages into a
PyPDF2.PdfWriter and serializing it. transactions abstracts
_extract_transactions (its own exceptions are caught internally by the
source, so it is total). -/
structure PdfLib where
  parseErr : Bytes → Option String
  isEncrypted : Bytes → Bool
  attempt : Bytes → String → DecryptOutcome
  writeOut : Bytes → Bytes
  transactions : Bytes → List String

/-- Embedding of PdfHandler._try_decrypt_with_password: an unencrypted
reader counts as success; otherwise only DecryptOutcome.ok counts, and
both a wrong password and an internal exception are reported as False. -/
def tryDecryptB (lib : PdfLib) (b : Bytes) (password : String) : Bool :=
  if lib.isEncrypted b = false then true
  else lib.attempt b password == DecryptOutcome.ok

/-- The mutable state the PdfHandler object owns (its three caches),
as association lists. -/
structure Engine where
  password_cache : List (String × String)
  group_passwords : List (String × String)
  format_cache : List (String × String)
deriving DecidableEq

/-- Python dict lookup. -/
def lookupA (k : String) : List (String × String) → Option String
  | [] => none
  | (k', v) :: rest => if k' = k then some v else lookupA k rest

/-- Python dict assignment d[k] = v. -/
def setA (k v : String) : List (String × String) → List (String × String)
  | [] => [(k, v)]
  | (k', v') :: rest => if k' = k then (k, v) :: rest else (k', v') :: setA k v rest

/-- The engine after self.group_passwords[group_key] = password. -/
def setGroup (eng : Engine) (k v : String) : Engine :=
  { eng with group_passwords := setA k v eng.group_passwords }

/-- One decrypt attempt as recorded in the trace: the password tried and
whether the PdfReader used for it was fresh, i.e. had not previously
failed a decrypt attempt. -/
structure Attempt where
  pw : String
  fresh : Bool
deriving DecidableEq

/-- Result quadruple of process_pdf: processed file data, needs_password
flag, error message, extracted transactions. -/
structure PdfResult where
  out : Option Bytes
  needsPassword : Bool
  err : String
  txns : List String
deriving DecidableEq

/-- The format hint process_pdf passes to variant generation:
_extract_password_format(email_body) if email_body else None. -/
def hintOf (emailBody : Option String) : Option String :=
  match emailBody with
  | none => none
  | some s => if s = "" then none else extractPasswordFormat s

/-- The inner variant loop of process_pdf: each variant is tried against a
freshly created reader; returns the winning variant (if any) and the
trace of attempts made. -/
def variantLoop (lib : PdfLib) (b : Bytes) : List String → Option String × List Attempt
  | [] => (none, [])
  | v :: vs =>
    if tryDecryptB lib b v then (some v, [⟨v, true⟩])
    else
      let r := variantLoop lib b vs
      (r.1, ⟨v, true⟩ :: r.2)

/-- The candidate loop of process_pdf (lines 221-263): blank candidates
are skipped; each non-blank candidate is tried verbatim against a fresh
reader, then its generated variants are tried against fresh readers; the
first success is cached under the group key; exhaustion yields the
needs-password outcome with the source's message. -/
def poolLoop (lib : PdfLib) (b : Bytes) (hint : Option String) (gk : String)
    (eng : Engine) : List String → PdfResult × Engine × List Attempt
  | [] => (⟨none, true, "File has not been decrypted", []⟩, eng, [])
  | p :: rest =>
    if pyStrip p = "" then poolLoop lib b hint gk eng rest
    else if tryDecryptB lib b p then
      (⟨some (lib.writeOut b), false, "", lib.transactions b⟩, setGroup eng gk p, [⟨p, true⟩])
    else
      let vres := variantLoop lib b (generateVariants p hint)
      match vres.1 with
      | some v =>
        (⟨some (lib.writeOut b), false, "", lib.transactions b⟩, setGroup eng gk v,
         ⟨p, true⟩ :: vres.2)
      | none =>
        let r := poolLoop lib b hint gk eng rest
        (r.1, r.2.1, (⟨p, true⟩ :: vres.2) ++ r.2.2)

/-- Embedding of PdfHandler.process_pdf. The source's passwords parameter
defaults to None; None and the empty list behave identically there (both
fail the `if not passwords` truthiness test and the loop body never runs
on None), so the embedding takes a plain list. Alongside the result and
the updated engine state it returns the trace of decrypt attempts made.
The reader used for the cached group password attempt is the one created
by the initial parse, which has made no decrypt attempt yet, hence it is
recorded fresh. -/
def processPdf (lib : PdfLib) (eng : Engine) (fileData : Bytes) (groupKey : String)
    (passwords : List String) (emailBody : Option String) :
    PdfResult × Engine × List Attempt :=
  if fileData = [] then (⟨none, false, "Empty file data received", []⟩, eng, [])
  else
    match lib.parseErr fileData with
    | some e => (⟨none, false, "Error opening PDF: " ++ e, []⟩, eng, [])
    | none =>
      if lib.isEncrypted fileData = false then
        (⟨some fileData, false, "", lib.transactions fileData⟩, eng, [])
      else
        match lookupA groupKey eng.group_passwords with
        | some gp =>
          if tryDecryptB lib fileData gp then
            (⟨some (lib.writeOut fileData), false, "", lib.transactions fileData⟩, eng,
             [⟨gp, true⟩])
          else if passwords = [] then
            (⟨none, true, "Password required", []⟩, eng, [⟨gp, true⟩])
          else
            let r := poolLoop lib fileData (hintOf emailBody) groupKey eng passwords
            (r.1, r.2.1, ⟨gp, true⟩ :: r.2.2)
        | none =>
          if passwords = [] then (⟨none, true, "Password required", []⟩, eng, [])
          else poolLoop lib fileData (hintOf emailBody) groupKey eng passwords

/-- The candidate loop of find_working_password (lines 285-302). Unlike
process_pdf, the verbatim attempt for a candidate is made against
whatever reader is current: the initial reader for the first non-blank
candidate, and the reader left over from the previous candidate's last
variant attempt afterwards. dirty records whether that current reader has
already failed a decrypt attempt. Each variant attempt does create a
fresh reader. -/
def fwpLoop (lib : PdfLib) (b : Bytes) (hint : Option String) :
    List String → Bool → Option String × List Attempt
  | [], _ => (none, [])
  | p :: rest, dirty =>
    if pyStrip p = "" then fwpLoop lib b hint rest dirty
    else if tryDecryptB lib b p then (some p, [⟨p, !dirty⟩])
    else
      let vres := variantLoop lib b (generateVariants p hint)
      match vres.1 with
      | some v => (some v, ⟨p, !dirty⟩ :: vres.2)
      | none =>
        let r := fwpLoop lib b hint rest true
        (r.1, (⟨p, !dirty⟩ :: vres.2) ++ r.2)

/-- Embedding of PdfHandler.find_working_password. A parse exception is
caught by the function's outer try/except and yields None; an unencrypted
document yields None immediately. The engine state is threaded through to
express that the function leaves it untouched. -/
def findWorkingPassword (lib : PdfLib) (eng : Engine) (fileData : Bytes)
    (passwords : List String) (emailBody : Option String) :
    Option String × Engine × List Attempt :=
  match lib.parseErr fileData with
  | some _ => (none, eng, [])
  | none =>
    if lib.isEncrypted fileData = false then (none, eng, [])
    else
      let r := fwpLoop lib fileData (hintOf emailBody) passwords false
      (r.1, eng, r.2)

/-! Helper lemmas about the embedding. -/

theorem dedupGo_mem_not_seen (l : List String) :
    ∀ (seen : List String) (x : String), x ∈ dedupGo seen l → x ∉ seen := by
  induction l with
  | nil => intro seen x hx; simp [dedupGo] at hx
  | cons a l ih =>
    intro seen x hx hxs
    by_cases ha : a ∈ seen
    · rw [dedupGo, if_pos ha] at hx
      exact ih seen x hx hxs
    · rw [dedupGo, if_neg ha] at hx
      rcases List.mem_cons.mp hx with h | h
      · exact ha (h ▸ hxs)
      · exact ih (a :: seen) x h (List.mem_cons_of_mem a hxs)

theorem dedupGo_nodup (l : List String) : ∀ seen : List String, (dedupGo seen l).Nodup := by
  induction l with
  | nil => intro seen; simp [dedupGo]
  | cons a l ih =>
    intro seen
    rw [dedupGo]
    by_cases ha : a ∈ seen
    · rw [if_pos ha]; exact ih seen
    · rw [if_neg ha]
      refine List.nodup_cons.mpr ⟨?_, ih (a :: seen)⟩
      intro hmem
      exact dedupGo_mem_not_seen l (a :: seen) a hmem (List.mem_cons_self a seen)

theorem generateVariants_nodup (p : String) (h : Option String) :
    (generateVariants p h).Nodup := by
  match h with
  | none => simp [generateVariants]
  | some s =>
    by_cases hs : s = ""
    · simp [generateVariants, hs]
    · simp only [generateVariants, if_neg hs]
      exact dedupGo_nodup _ _

theorem variantLoop_some (lib : PdfLib) (b : Bytes) :
    ∀ (vs : List String) (v : String), (variantLoop lib b vs).1 = some v →
      tryDecryptB lib b v = true ∧ v ∈ vs := by
  intro vs
  induction vs with
  | nil => intro v hv; simp [variantLoop] at hv
  | cons w ws ih =>
    intro v hv
    by_cases hw : tryDecryptB lib b w = true
    · simp only [variantLoop, if_pos hw] at hv
      cases hv
      exact ⟨hw, List.mem_cons_self _ _⟩
    · simp only [variantLoop, if_neg hw] at hv
      rcases ih v hv with ⟨h1, h2⟩
      exact ⟨h1, List.mem_cons_of_mem _ h2⟩

theorem variantLoop_all_fail (lib : PdfLib) (b : Bytes) :
    ∀ vs : List String, (∀ v ∈ vs, tryDecryptB lib b v = false) →
      (variantLoop lib b vs).1 = none := by
  intro vs
  induction vs with
  | nil => intro _; simp [variantLoop]
  | cons w ws ih =>
    intro hall
    have hw : tryDecryptB lib b w = false := hall w (List.mem_cons_self _ _)
    simp only [variantLoop, hw]
    simp only [Bool.false_eq_true, if_false]
    exact ih fun v hv => hall v (List.mem_cons_of_mem _ hv)

theorem poolLoop_cases (lib : PdfLib) (b : Bytes) (hint : Option String) (gk : String)
    (eng : Engine) :
    ∀ pool : List String,
      ((poolLoop lib b hint gk eng pool).1 = ⟨none, true, "File has not been decrypted", []⟩ ∧
        (poolLoop lib b hint gk eng pool).2.1 = eng) ∨
      (∃ w, tryDecryptB lib b w = true ∧
        (w ∈ pool ∨ ∃ p ∈ pool, w ∈ generateVariants p hint) ∧
        (poolLoop lib b hint gk eng pool).1 =
          ⟨some (lib.writeOut b), false, "", lib.transactions b⟩ ∧
        (poolLoop lib b hint gk eng pool).2.1 = setGroup eng gk w) := by
  intro pool
  induction pool with
  | nil => left; simp [poolLoop]
  | cons p rest ih =>
    by_cases hblank : pyStrip p = ""
    · simp only [poolLoop, if_pos hblank]
      rcases ih with h | ⟨w, h1, h2, h3, h4⟩
      · left; exact h
      · right
        refine ⟨w, h1, ?_, h3, h4⟩
        rcases h2 with h2 | ⟨q, hq1, hq2⟩
        · exact Or.inl (List.mem_cons_of_mem _ h2)
        · exact Or.inr ⟨q, List.mem_cons_of_mem _ hq1, hq2⟩
    · by_cases hp : tryDecryptB lib b p = true
      · right
        refine ⟨p, hp, Or.inl (List.mem_cons_self _ _), ?_, ?_⟩ <;>
          simp [poolLoop, if_neg hblank, hp]
      · rcases hv : (variantLoop lib b (generateVariants p hint)).1 with _ | v
        · rcases ih with ⟨h1, h2⟩ | ⟨w, h1, h2, h3, h4⟩
          · left
            constructor <;> simp [poolLoop, if_neg hblank, if_neg hp, hv, h1, h2]
          · right
            refine ⟨w, h1, ?_, ?_, ?_⟩
            · rcases h2 with h2 | ⟨q, hq1, hq2⟩
              · exact Or.inl (List.mem_cons_of_mem _ h2)
              · exact Or.inr ⟨q, List.mem_cons_of_mem _ hq1, hq2⟩
            · simp [poolLoop, if_neg hblank, if_neg hp, hv, h3]
            · simp [poolLoop, if_neg hblank, if_neg hp, hv, h4]
        · rcases variantLoop_some lib b (generateVariants p hint) v hv with ⟨h1, h2⟩
          right
          refine ⟨v, h1, Or.inr ⟨p, List.mem_cons_self _ _, h2⟩, ?_, ?_⟩ <;>
            simp [poolLoop, if_neg hblank, if_neg hp, hv]

theorem poolLoop_fail (lib : PdfLib) (b : Bytes) (hint : Option String) (gk : String)
    (eng : Engine) :
    ∀ pool : List String,
      (∀ p ∈ pool, tryDecryptB lib b p = false ∧
        ∀ v ∈ generateVariants p hint, tryDecryptB lib b v = false) →
      (poolLoop lib b hint gk eng pool).1 = ⟨none, true, "File has not been decrypted", []⟩ ∧
      (poolLoop lib b hint gk eng pool).2.1 = eng := by
  intro pool
  induction pool with
  | nil => intro _; simp [poolLoop]
  | cons p rest ih =>
    intro hall
    have hp : tryDecryptB lib b p = false := (hall p (List.mem_cons_self _ _)).1
    have hvs : (variantLoop lib b (generateVariants p hint)).1 = none :=
      variantLoop_all_fail lib b _ (hall p (List.mem_cons_self _ _)).2
    have ihr := ih fun q hq => hall q (List.mem_cons_of_mem _ hq)
    by_cases hblank : pyStrip p = ""
    · simpa [poolLoop, if_pos hblank] using ihr
    · constructor <;> simp [poolLoop, if_neg hblank, hp, hvs, ihr.1, ihr.2]

theorem poolLoop_trace_head (lib : PdfLib) (b : Bytes) (hint : Option String) (gk : String)
    (eng : Engine) (p : String) (rest : List String) (hp : pyStrip p ≠ "") :
    (((poolLoop lib b hint gk eng (p :: rest)).2.2).map Attempt.pw).head? = some p := by
  by_cases hd : tryDecryptB lib b p = true
  · simp [poolLoop, if_neg hp, hd]
  · rcases hv : (variantLoop lib b (generateVariants p hint)).1 with _ | v <;>
      simp [poolLoop, if_neg hp, hd, hv]

theorem fwpLoop_trace_head (lib : PdfLib) (b : Bytes) (hint : Option String)
    (p : String) (rest : List String) (dirty : Bool) (hp : pyStrip p ≠ "") :
    (((fwpLoop lib b hint (p :: rest) dirty).2).map Attempt.pw).head? = some p := by
  by_cases hd : tryDecryptB lib b p = true
  · simp [fwpLoop, if_neg hp, hd]
  · rcases hv : (variantLoop lib b (generateVariants p hint)).1 with _ | v <;>
      simp [fwpLoop, if_neg hp, hd, hv]

theorem processPdf_cached_success (lib : PdfLib) (eng : Engine) (b : Bytes) (gk : String)
    (P : String) (pool : List String) (body : Option String)
    (h1 : b ≠ []) (h2 : lib.parseErr b = none) (h3 : lib.isEncrypted b = true)
    (hc : lookupA gk eng.group_passwords = some P) (hP : tryDecryptB lib b P = true) :
    processPdf lib eng b gk pool body =
      (⟨some (lib.writeOut b), false, "", lib.transactions b⟩, eng, [⟨P, true⟩]) := by
  simp [processPdf, if_neg h1, h2, h3, hc, hP]

theorem processPdf_result_cases (lib : PdfLib) (eng : Engine) (b : Bytes) (gk : String)
    (pool : List String) (body : Option String)
    (h1 : b ≠ []) (h2 : lib.parseErr b = none) (h3 : lib.isEncrypted b = true)
    (hc : ∀ gp, lookupA gk eng.group_passwords = some gp → tryDecryptB lib b gp = false) :
    ((processPdf lib eng b gk pool body).1.needsPassword = true ∧
      (processPdf lib eng b gk pool body).1.out = none ∧
      (processPdf lib eng b gk pool body).2.1 = eng) ∨
    (∃ w, tryDecryptB lib b w = true ∧
      (w ∈ pool ∨ ∃ p ∈ pool, w ∈ generateVariants p (hintOf body)) ∧
      (processPdf lib eng b gk pool body).1 =
        ⟨some (lib.writeOut b), false, "", lib.transactions b⟩ ∧
      (processPdf lib eng b gk pool body).2.1 = setGroup eng gk w) := by
  rcases hl : lookupA gk eng.group_passwords with _ | gp
  · by_cases hpool : pool = []
    · left; simp [processPdf, if_neg h1, h2, h3, hl, hpool]
    · rcases poolLoop_cases lib b (hintOf body) gk eng pool with ⟨ha, hb⟩ | ⟨w, w1, w2, w3, w4⟩
      · left
        refine ⟨?_, ?_, ?_⟩ <;> simp [processPdf, if_neg h1, h2, h3, hl, hpool, ha, hb]
      · right
        refine ⟨w, w1, w2, ?_, ?_⟩ <;>
          simp [processPdf, if_neg h1, h2, h3, hl, hpool, w3, w4]
  · have hgp : tryDecryptB lib b gp = false := hc gp hl
    by_cases hpool : pool = []
    · left; simp [processPdf, if_neg h1, h2, h3, hl, hgp, hpool]
    · rcases poolLoop_cases lib b (hintOf body) gk eng pool with ⟨ha, hb⟩ | ⟨w, w1, w2, w3, w4⟩
      · left
        refine ⟨?_, ?_, ?_⟩ <;> simp [processPdf, if_neg h1, h2, h3, hl, hgp, hpool, ha, hb]
      · right
        refine ⟨w, w1, w2, ?_, ?_⟩ <;>
          simp [processPdf, if_neg h1, h2, h3, hl, hgp, hpool, w3, w4]

theorem processPdf_state_cases (lib : PdfLib) (eng : Engine) (b : Bytes) (gk : String)
    (pool : List String) (body : Option String) :
    (processPdf lib eng b gk pool body).2.1 = eng ∨
    (∃ w, tryDecryptB lib b w = true ∧
      (w ∈ pool ∨ ∃ p ∈ pool, w ∈ generateVariants p (hintOf body)) ∧
      (processPdf lib eng b gk pool body).1 =
        ⟨some (lib.writeOut b), false, "", lib.transactions b⟩ ∧
      (processPdf lib eng b gk pool body).2.1 = setGroup eng gk w) := by
  by_cases h1 : b = []
  · left; simp [processPdf, h1]
  · rcases h2 : lib.parseErr b with _ | msg
    · by_cases h3 : lib.isEncrypted b = true
      · rcases hl : lookupA gk eng.group_passwords with _ | gp
        · rcases processPdf_result_cases lib eng b gk pool body h1 h2 h3
            (fun gp hgp => by rw [hl] at hgp; cases hgp) with ⟨_, _, hs⟩ | h
          · left; exact hs
          · right; exact h
        · by_cases hgp : tryDecryptB lib b gp = true
          · left
            rw [processPdf_cached_success lib eng b gk gp pool body h1 h2 h3 hl hgp]
          · rcases processPdf_result_cases lib eng b gk pool body h1 h2 h3
              (fun q hq => by
                rw [hl] at hq
                cases hq
                exact Bool.eq_false_iff.mpr hgp) with ⟨_, _, hs⟩ | h
            · left; exact hs
            · right; exact h
      · left
        have h3' : lib.isEncrypted b = false := Bool.eq_false_iff.mpr h3
        simp [processPdf, if_neg h1, h2, h3']
    · left; simp [processPdf, if_neg h1, h2]

theorem processPdf_encrypted_success_out (lib : PdfLib) (eng : Engine) (b : Bytes)
    (gk : String) (pool : List String) (body : Option String)
    (h1 : b ≠ []) (h2 : lib.parseErr b = none) (h3 : lib.isEncrypted b = true)
    (hnp : (processPdf lib eng b gk pool body).1.needsPassword = false) :
    (processPdf lib eng b gk pool body).1 =
      ⟨some (lib.writeOut b), false, "", lib.transactions b⟩ := by
  rcases hl : lookupA gk eng.group_passwords with _ | gp
  · rcases processPdf_result_cases lib eng b gk pool body h1 h2 h3
      (fun q hq => by rw [hl] at hq; cases hq) with ⟨ha, _, _⟩ | ⟨w, _, _, h4, _⟩
    · rw [ha] at hnp; cases hnp
    · exact h4
  · by_cases hgp : tryDecryptB lib b gp = true
    · rw [processPdf_cached_success lib eng b gk gp pool body h1 h2 h3 hl hgp]
    · rcases processPdf_result_cases lib eng b gk pool body h1 h2 h3
        (fun q hq => by
          rw [hl] at hq
          cases hq
          exact Bool.eq_false_iff.mpr hgp) with ⟨ha, _, _⟩ | ⟨w, _, _, h4, _⟩
      · rw [ha] at hnp; cases hnp
      · exact h4

theorem findWorkingPassword_state (lib : PdfLib) (eng : Engine) (b : Bytes)
    (pool : List String) (body : Option String) :
    (findWorkingPassword lib eng b pool body).2.1 = eng := by
  rcases h : lib.parseErr b with _ | m
  · by_cases he : lib.isEncrypted b = false <;> simp [findWorkingPassword, h, he]
  · simp [findWorkingPassword, h]

/-! Concrete library and engine instances used by the witnesses and
counterexamples. -/

/-- Engine with all caches empty, as built by PdfHandler.__init__. -/
def eng0 : Engine := ⟨[], [], []⟩

/-- Engine whose group-password cache maps group g to password p. -/
def engCached : Engine := ⟨[], [("g", "p")], []⟩

/-- An encrypted document unlocked exactly by "p"; re-serializing the
decrypted document through the writer yields [0], which differs from the
sample input [1]. -/
def libWriterZero : PdfLib :=
  ⟨fun _ => none, fun _ => true, fun _ q => if q = "p" then .ok else .wrong,
   fun _ => [0], fun _ => []⟩

/-- An encrypted document no password unlocks. -/
def libNoneWork : PdfLib :=
  ⟨fun _ => none, fun _ => true, fun _ _ => .wrong, fun _ => [0], fun _ => []⟩

/-- An encrypted document for which every decrypt call raises an
exception inside the decryption library. -/
def libExnRaise : PdfLib :=
  ⟨fun _ => none, fun _ => true, fun _ _ => .exn, fun _ => [0], fun _ => []⟩

/-- An encrypted document unlocked exactly by "4567". -/
def libOnly4567 : PdfLib :=
  ⟨fun _ => none, fun _ => true, fun _ q => if q = "4567" then .ok else .wrong,
   fun _ => [0], fun _ => []⟩

/-- An unencrypted document with one extracted transaction. -/
def libPlain : PdfLib :=
  ⟨fun _ => none, fun _ => false, fun _ _ => .wrong, fun _ => [0], fun _ => ["txn"]⟩

/-- A byte string PyPDF2.PdfReader rejects with message "bad". -/
def libParseFail : PdfLib :=
  ⟨fun _ => some "bad", fun _ => true, fun _ _ => .wrong, fun _ => [0], fun _ => []⟩

/-! Claim theorems. -/

/-- C1 counterexample: for an encrypted document [1] that resolve unlocks
with pool candidate "p", the returned bytes are the writer's
re-serialization [0] of the decrypted document, not the original input
bytes [1]; so the claim that the decrypted_bytes equal the input bytes is
false at this input. -/
theorem resolve_returns_writer_bytes_counterexample :
    processPdf libWriterZero eng0 [1] "g" ["p"] none =
      (⟨some [0], false, "", []⟩, ⟨[], [("g", "p")], []⟩, [⟨"p", true⟩]) ∧
    some ([0] : Bytes) ≠ some [1] := by decide

/-- C1 (amended): for every encrypted document that resolve (process_pdf)
successfully unlocks — via the cached group password, a verbatim pool
candidate, or a generated variant — the returned decrypted_bytes are the
re-serialization of the decrypted document produced by the PDF writer
(lib.writeOut), with needs_password = false and an empty error message;
the original input bytes are not what is returned. -/
theorem resolve_success_returns_writer_output (lib : PdfLib) (eng : Engine) (b : Bytes)
    (gk : String) (pool : List String) (body : Option String)
    (h1 : b ≠ []) (h2 : lib.parseErr b = none) (h3 : lib.isEncrypted b = true)
    (hnp : (processPdf lib eng b gk pool body).1.needsPassword = false) :
    (processPdf lib eng b gk pool body).1 =
      ⟨some (lib.writeOut b), false, "", lib.transactions b⟩ :=
  processPdf_encrypted_success_out lib eng b gk pool body h1 h2 h3 hnp

/-- C1 witness: the amended theorem applied at the concrete unlocking run. -/
theorem resolve_success_returns_writer_output_witness :
    (processPdf libWriterZero eng0 [1] "g" ["p"] none).1 =
      ⟨some (libWriterZero.writeOut [1]), false, "", libWriterZero.transactions [1]⟩ :=
  resolve_success_returns_writer_output libWriterZero eng0 [1] "g" ["p"] none
    (by decide) rfl rfl (by decide)

/-- C2: for every input that parses as a PDF and is not
password-protected, resolve returns the input bytes unchanged with
needs_password = false and an empty error message, for every password
pool and every format-hint source; the engine state is untouched. -/
theorem resolve_unencrypted_passthrough (lib : PdfLib) (eng : Engine) (b : Bytes)
    (gk : String) (pool : List String) (body : Option String)
    (h1 : b ≠ []) (h2 : lib.parseErr b = none) (h3 : lib.isEncrypted b = false) :
    processPdf lib eng b gk pool body =
      (⟨some b, false, "", lib.transactions b⟩, eng, []) := by
  simp [processPdf, if_neg h1, h2, h3]

/-- C2 witness: the theorem applied to a concrete unencrypted document. -/
theorem resolve_unencrypted_passthrough_witness :
    processPdf libPlain eng0 [1] "g" ["x"] (some "body") =
      (⟨some [1], false, "", ["txn"]⟩, eng0, []) :=
  resolve_unencrypted_passthrough libPlain eng0 [1] "g" ["x"] (some "body")
    (by decide) rfl rfl

/-- C3 counterexample: the code's needs-password messages are
"Password required" and "File has not been decrypted", not the claim's
"password required" and "document has not been decrypted". -/
theorem resolve_needs_password_messages_counterexample :
    (processPdf libNoneWork eng0 [1] "g" [] none).1 =
      ⟨none, true, "Password required", []⟩ ∧
    "Password required" ≠ "password required" ∧
    (processPdf libNoneWork eng0 [1] "g" ["a"] none).1 =
      ⟨none, true, "File has not been decrypted", []⟩ ∧
    "File has not been decrypted" ≠ "document has not been decrypted" := by decide

/-- C3 (amended): for every encrypted document with no usable cached
group password, an empty password pool yields
(null, needs_password = true, "Password required"), and a non-empty pool
whose candidates and all their generated variants are exhausted without
success yields (null, needs_password = true,
"File has not been decrypted"). -/
theorem resolve_needs_password_messages (lib : PdfLib) (eng : Engine) (b : Bytes)
    (gk : String) (body : Option String)
    (h1 : b ≠ []) (h2 : lib.parseErr b = none) (h3 : lib.isEncrypted b = true)
    (hc : ∀ gp, lookupA gk eng.group_passwords = some gp → tryDecryptB lib b gp = false) :
    (processPdf lib eng b gk [] body).1 = ⟨none, true, "Password required", []⟩ ∧
    ∀ pool : List String, pool ≠ [] →
      (∀ p ∈ pool, tryDecryptB lib b p = false ∧
        ∀ v ∈ generateVariants p (hintOf body), tryDecryptB lib b v = false) →
      (processPdf lib eng b gk pool body).1 =
        ⟨none, true, "File has not been decrypted", []⟩ := by
  constructor
  · rcases hl : lookupA gk eng.group_passwords with _ | gp
    · simp [processPdf, if_neg h1, h2, h3, hl]
    · simp [processPdf, if_neg h1, h2, h3, hl, hc gp hl]
  · intro pool hpe hall
    have pf := poolLoop_fail lib b (hintOf body) gk eng pool hall
    rcases hl : lookupA gk eng.group_passwords with _ | gp
    · simp [processPdf, if_neg h1, h2, h3, hl, hpe, pf.1]
    · simp [processPdf, if_neg h1, h2, h3, hl, hc gp hl, hpe, pf.1]

/-- C3 witness: the amended theorem applied at a concrete encrypted
document whose pool candidate "a" and all its variants fail. -/
theorem resolve_needs_password_messages_witness :
    (processPdf libNoneWork eng0 [1] "g" [] none).1 =
      ⟨none, true, "Password required", []⟩ ∧
    (processPdf libNoneWork eng0 [1] "g" ["a"] none).1 =
      ⟨none, true, "File has not been decrypted", []⟩ :=
  ⟨(resolve_needs_password_messages libNoneWork eng0 [1] "g" none
      (by decide) rfl rfl (by intro gp hgp; cases hgp)).1,
   (resolve_needs_password_messages libNoneWork eng0 [1] "g" none
      (by decide) rfl rfl (by intro gp hgp; cases hgp)).2 ["a"] (by decide) (by decide)⟩

/-- C4: if the group cache maps group gk to password P and the document
decrypts under P, resolve succeeds using P alone — the result is
independent of the password pool and of the format-hint source, the pool
is never consulted (P may be absent from it), and the cache is left
unchanged. -/
theorem resolve_cached_group_password_success (lib : PdfLib) (eng : Engine) (b : Bytes)
    (gk P : String) (pool pool' : List String) (body body' : Option String)
    (h1 : b ≠ []) (h2 : lib.parseErr b = none) (h3 : lib.isEncrypted b = true)
    (hc : lookupA gk eng.group_passwords = some P) (hP : tryDecryptB lib b P = true) :
    processPdf lib eng b gk pool body =
      (⟨some (lib.writeOut b), false, "", lib.transactions b⟩, eng, [⟨P, true⟩]) ∧
    processPdf lib eng b gk pool body = processPdf lib eng b gk pool' body' := by
  have e1 := processPdf_cached_success lib eng b gk P pool body h1 h2 h3 hc hP
  have e2 := processPdf_cached_success lib eng b gk P pool' body' h1 h2 h3 hc hP
  exact ⟨e1, e1.trans e2.symm⟩

/-- C4 witness: cached password "p" for group "g" unlocks the document
although the pool ["q"] does not contain "p", and the result equals the
one for an entirely different pool and hint source. -/
theorem resolve_cached_group_password_success_witness :
    processPdf libWriterZero engCached [1] "g" ["q"] none =
      (⟨some (libWriterZero.writeOut [1]), false, "", libWriterZero.transactions [1]⟩,
        engCached, [⟨"p", true⟩]) ∧
    processPdf libWriterZero engCached [1] "g" ["q"] none =
      processPdf libWriterZero engCached [1] "g" [] (some "x") :=
  resolve_cached_group_password_success libWriterZero engCached [1] "g" "p" ["q"] []
    none (some "x") (by decide) rfl rfl rfl (by decide)

/-- C5: generate_variants always returns a duplicate-free list, and in
the consumption order of both callers (the candidate loops of process_pdf
and find_working_password) the candidate password itself is the first
string tested for that candidate. -/
theorem generate_variants_nodup_and_candidate_first (p : String) (h : Option String) :
    (generateVariants p h).Nodup ∧
    (∀ (lib : PdfLib) (b : Bytes) (gk : String) (eng : Engine) (rest : List String),
      pyStrip p ≠ "" →
      (((poolLoop lib b h gk eng (p :: rest)).2.2).map Attempt.pw).head? = some p) ∧
    (∀ (lib : PdfLib) (b : Bytes) (rest : List String) (dirty : Bool),
      pyStrip p ≠ "" →
      (((fwpLoop lib b h (p :: rest) dirty).2).map Attempt.pw).head? = some p) := by
  refine ⟨generateVariants_nodup p h, ?_, ?_⟩
  · intro lib b gk eng rest hp
    exact poolLoop_trace_head lib b h gk eng p rest hp
  · intro lib b rest dirty hp
    exact fwpLoop_trace_head lib b h p rest dirty hp

/-- C5 witness: the theorem applied at candidate "a" with no hint and at
a concrete pool run. -/
theorem generate_variants_nodup_and_candidate_first_witness :
    (generateVariants "a" none).Nodup ∧
    (((poolLoop libNoneWork [1] none "g" eng0 ["a"]).2.2).map Attempt.pw).head? =
      some "a" :=
  ⟨(generate_variants_nodup_and_candidate_first "a" none).1,
   (generate_variants_nodup_and_candidate_first "a" none).2.1 libNoneWork [1] "g" eng0 []
     (by decide)⟩

/-- C6: for password "01-02-1990" (stripped form "01021990", exactly 8
digits) and hint "dob", the variants contain the stripped string and its
DDMMYYYY→YYYYMMDD rotation "19900201", but the DDMMYYYY→MMDDYYYY
rearrangement "02011990" is absent: the source's third variant
clean_pass[:4] + clean_pass[4:6] + clean_pass[6:] is the identity on
clean_pass although the adjacent comment labels it MMDDYYYY. -/
theorem dob_mmddyyyy_variant_missing :
    generateVariants "01-02-1990" (some "dob") = ["01-02-1990", "01021990", "19900201"] ∧
    "01021990" ∈ generateVariants "01-02-1990" (some "dob") ∧
    "19900201" ∈ generateVariants "01-02-1990" (some "dob") ∧
    "02011990" ∉ generateVariants "01-02-1990" (some "dob") := by decide

/-- C7: for the pool candidate "card-number-1234567" and the email body
"password is last 4 digits", _extract_password_format captures only the
digit string "4"; since _generate_variants_from_format requires the
literal substring "last" in the hint, the last-4 truncation "4567" is
never generated, and resolve fails on a document that "4567" would
unlock even though the library confirms "4567" unlocks it. -/
theorem last_digits_variant_unreachable :
    extractPasswordFormat "password is last 4 digits" = some "4" ∧
    "4567" ∉ generateVariants "card-number-1234567"
      (hintOf (some "password is last 4 digits")) ∧
    (processPdf libOnly4567 eng0 [1] "g" ["card-number-1234567"]
        (some "password is last 4 digits")).1 =
      ⟨none, true, "File has not been decrypted", []⟩ ∧
    tryDecryptB libOnly4567 [1] "4567" = true := by decide

/-- C8: in find_working_password on pool ["a", "b"] with every attempt
failing, the verbatim attempt for the second candidate "b" is made on the
reader left over from the first candidate's last failed variant attempt
(fresh = false), while in process_pdf on the same input every attempt
uses a fresh reader; so the claim that both functions use a fresh parse
for every attempt is false for find_working_password. -/
theorem fwp_stale_reader_reuse :
    (findWorkingPassword libNoneWork eng0 [1] ["a", "b"] none).2.2 =
      [⟨"a", true⟩, ⟨"a", true⟩, ⟨"b", false⟩, ⟨"b", true⟩] ∧
    Attempt.mk "b" false ∈ (findWorkingPassword libNoneWork eng0 [1] ["a", "b"] none).2.2 ∧
    (∀ a ∈ (processPdf libNoneWork eng0 [1] "g" ["a", "b"] none).2.2, a.fresh = true) := by
  decide

/-- C9 counterexample: with every decrypt call raising an exception
inside the decryption library, resolve returns the needs-password
outcome (needs_password = true), not the claim's hard-error outcome
(needs_password = false): the exception is swallowed as a failed
attempt. -/
theorem resolve_decrypt_exception_counterexample :
    libExnRaise.attempt [1] "p" = DecryptOutcome.exn ∧
    libExnRaise.isEncrypted [1] = true ∧
    libExnRaise.parseErr [1] = none ∧
    (processPdf libExnRaise eng0 [1] "g" ["p"] none).1 =
      ⟨none, true, "File has not been decrypted", []⟩ ∧
    (true : Bool) ≠ false := by decide

/-- C9 (amended): resolve never propagates an exception (the embedding is
a total function): empty input bytes and an unparseable container each
yield the hard-error outcome (null bytes, needs_password = false, a
non-empty message), while an exception raised inside a decrypt attempt is
swallowed by _try_decrypt_with_password and converted to a failed attempt
rather than a hard error. -/
theorem resolve_error_outcomes (lib : PdfLib) (eng : Engine) (gk : String)
    (pool : List String) (body : Option String) :
    (processPdf lib eng [] gk pool body).1 =
      ⟨none, false, "Empty file data received", []⟩ ∧
    (∀ (b : Bytes) (msg : String), b ≠ [] → lib.parseErr b = some msg →
      (processPdf lib eng b gk pool body).1 =
        ⟨none, false, "Error opening PDF: " ++ msg, []⟩ ∧
      "Error opening PDF: " ++ msg ≠ "") ∧
    (∀ (b : Bytes) (p : String), lib.isEncrypted b = true →
      lib.attempt b p = DecryptOutcome.exn → tryDecryptB lib b p = false) := by
  refine ⟨by simp [processPdf], ?_, ?_⟩
  · intro b msg hb hp
    constructor
    · simp [processPdf, if_neg hb, hp]
    · intro hcontra
      cases msg with
      | mk mdata =>
        have h2 := congrArg String.data hcontra
        simp [String.data_append] at h2
  · intro b p he hexn
    simp [tryDecryptB, he, hexn]

/-- C9 witness: the amended theorem applied to the empty input, a
concrete unparseable input, and a concrete exception-raising decrypt. -/
theorem resolve_error_outcomes_witness :
    (processPdf libParseFail eng0 [] "g" [] none).1 =
      ⟨none, false, "Empty file data received", []⟩ ∧
    (processPdf libParseFail eng0 [2] "g" [] none).1 =
      ⟨none, false, "Error opening PDF: " ++ "bad", []⟩ ∧
    tryDecryptB libExnRaise [1] "p" = false :=
  ⟨(resolve_error_outcomes libParseFail eng0 "g" [] none).1,
   ((resolve_error_outcomes libParseFail eng0 "g" [] none).2.1 [2] "bad"
      (by decide) rfl).1,
   (resolve_error_outcomes libExnRaise eng0 "g" [] none).2.2 [1] "p" rfl rfl⟩

/-- C10: find_working_password never modifies the engine state, and in
process_pdf the group cache is written exactly when a pool candidate or
generated variant succeeds: the state is unchanged on the needs-password
outcome, on any hard error, on the unencrypted pass-through, and on
cached-password success; and on an encrypted run past a missing or
failing cached password that ends with needs_password = false, the state
update is precisely the successful candidate or variant recorded under
the group key. -/
theorem engine_state_frame (lib : PdfLib) (eng : Engine) (b : Bytes) (gk : String)
    (pool : List String) (body : Option String) :
    (findWorkingPassword lib eng b pool body).2.1 = eng ∧
    ((processPdf lib eng b gk pool body).1.needsPassword = true →
      (processPdf lib eng b gk pool body).2.1 = eng) ∧
    ((processPdf lib eng b gk pool body).1.err ≠ "" →
      (processPdf lib eng b gk pool body).2.1 = eng) ∧
    (lib.isEncrypted b = false → (processPdf lib eng b gk pool body).2.1 = eng) ∧
    (∀ P, lookupA gk eng.group_passwords = some P → tryDecryptB lib b P = true →
      (processPdf lib eng b gk pool body).2.1 = eng) ∧
    (b ≠ [] → lib.parseErr b = none → lib.isEncrypted b = true →
      (∀ gp, lookupA gk eng.group_passwords = some gp → tryDecryptB lib b gp = false) →
      (processPdf lib eng b gk pool body).1.needsPassword = false →
      ∃ w, tryDecryptB lib b w = true ∧
        (w ∈ pool ∨ ∃ p ∈ pool, w ∈ generateVariants p (hintOf body)) ∧
        (processPdf lib eng b gk pool body).2.1 = setGroup eng gk w) := by
  refine ⟨findWorkingPassword_state lib eng b pool body, ?_, ?_, ?_, ?_, ?_⟩
  · intro hnp
    rcases processPdf_state_cases lib eng b gk pool body with h | ⟨w, _, _, h3, _⟩
    · exact h
    · rw [h3] at hnp; cases hnp
  · intro herr
    rcases processPdf_state_cases lib eng b gk pool body with h | ⟨w, _, _, h3, _⟩
    · exact h
    · rw [h3] at herr; simp at herr
  · intro he
    by_cases h1 : b = []
    · simp [processPdf, h1]
    · rcases h2 : lib.parseErr b with _ | msg
      · simp [processPdf, if_neg h1, h2, he]
      · simp [processPdf, if_neg h1, h2]
  · intro P hP hPd
    by_cases h1 : b = []
    · simp [processPdf, h1]
    · rcases h2 : lib.parseErr b with _ | msg
      · by_cases h3 : lib.isEncrypted b = true
        · rw [processPdf_cached_success lib eng b gk P pool body h1 h2 h3 hP hPd]
        · have h3' : lib.isEncrypted b = false := Bool.eq_false_iff.mpr h3
          simp [processPdf, if_neg h1, h2, h3']
      · simp [processPdf, if_neg h1, h2]
  · intro h1 h2 h3 hc hnp
    rcases processPdf_result_cases lib eng b gk pool body h1 h2 h3 hc with
      ⟨ha, _, _⟩ | ⟨w, w1, w2, _, w4⟩
    · rw [ha] at hnp; cases hnp
    · exact ⟨w, w1, w2, w4⟩

/-- C10 witness: the theorem applied at a run that leaves the state
unchanged on needs-password, at a cached-password success with a
non-empty pool, and at the unencrypted pass-through. -/
theorem engine_state_frame_witness :
    (findWorkingPassword libNoneWork eng0 [1] ["a"] none).2.1 = eng0 ∧
    (processPdf libWriterZero engCached [1] "g" ["q"] none).2.1 = engCached ∧
    (processPdf libNoneWork eng0 [1] "g" [] none).2.1 = eng0 ∧
    (processPdf libPlain eng0 [1] "g" ["x"] none).2.1 = eng0 :=
  ⟨(engine_state_frame libNoneWork eng0 [1] "g" ["a"] none).1,
   (engine_state_frame libWriterZero engCached [1] "g" ["q"] none).2.2.2.2.1 "p" rfl
     (by decide),
   (engine_state_frame libNoneWork eng0 [1] "g" [] none).2.1 (by decide),
   (engine_state_frame libPlain eng0 [1] "g" ["x"] none).2.2.2.1 rfl⟩

end PdfHandler
